import Mathlib

/-!
Verification of the APDU framing/dispatch layer and signing state machine
of the ledger-tezos hardware-wallet application.

Constants below (`OFFSET_*`, `APDU_MIN_LENGTH`, `INS_*`) are transcribed
from `src/rust/app/refactor/coin.h`.  The parser, dispatcher and signing
state machine themselves are not shipped in the available sources, so they
are modelled from the specification (marked `Modelled from the spec:` in
their doc comments).
-/

namespace LedgerTezos

/-! ### Constants from `src/rust/app/refactor/coin.h` -/

/-- `#define OFFSET_CLA 0` -/
def OFFSET_CLA : Nat := 0

/-- `#define OFFSET_INS 1` (instruction offset) -/
def OFFSET_INS : Nat := 1

/-- `#define OFFSET_P1 2` -/
def OFFSET_P1 : Nat := 2

/-- `#define OFFSET_P2 3` -/
def OFFSET_P2 : Nat := 3

/-- `#define OFFSET_DATA_LEN 4` (data length) -/
def OFFSET_DATA_LEN : Nat := 4

/-- `#define OFFSET_DATA 5` (data offset) -/
def OFFSET_DATA : Nat := 5

/-- `#define APDU_MIN_LENGTH 5` -/
def APDU_MIN_LENGTH : Nat := 5

/-- `#define OFFSET_PAYLOAD_TYPE OFFSET_P1` -/
def OFFSET_PAYLOAD_TYPE : Nat := OFFSET_P1

/-- `#define INS_GET_VERSION 0x00` -/
def INS_GET_VERSION : Nat := 0x00

/-- `#define INS_GET_ADDR_SECP256K1 0x01` -/
def INS_GET_ADDR_SECP256K1 : Nat := 0x01

/-- `#define INS_SIGN_SECP256K1 0x02` -/
def INS_SIGN_SECP256K1 : Nat := 0x02

/-! ### Modelled configuration constants -/

/-- Modelled from the spec: the expected application class byte.  The
dispatcher's class check is described in §4.2 and the worked example in
§8 uses `CLA=0x80`; the concrete constant is not in the available
sources. -/
def CLA_APP : Nat := 0x80

/-- Modelled from the spec: P1 value marking the first ("init") signing
chunk.  §9 leaves the exact P1 values as implementer-defined constants;
we fix first/more/last as 0/1/2. -/
def P1_INIT : Nat := 0

/-- Modelled from the spec: P1 value marking a "more chunks" ("add")
signing chunk (see `P1_INIT`). -/
def P1_ADD : Nat := 1

/-- Modelled from the spec: P1 value marking the last signing chunk
(see `P1_INIT`). -/
def P1_LAST : Nat := 2

/-- Modelled from the spec: the maximum supported transaction size (§4.4
`BufferOverflow` bound).  §9 leaves the concrete bound as an
implementer-defined configuration constant; we fix 512 bytes. -/
def MAX_TX_SIZE : Nat := 512

/-! ### Error kinds and status codes -/

/-- Error classification from the spec's status-code taxonomy (§6, §7):
transport/framing, dispatch, handler-local, and user-driven outcomes. -/
inductive ErrorKind
  | InvalidFrame
  | UnsupportedClass
  | InvalidInstruction
  | InvalidClass
  | InvalidPath
  | UserRejected
  | SequenceError
  | ParseError
  | BufferOverflow
  | InternalError
deriving DecidableEq, Repr

/-- Modelled from the spec: the two-byte status code attached to each
response.  §6 pins success = `0x9000` and unknown instructions =
`0x6D00`-class; the remaining codes are the implementer's choice within
the taxonomy. -/
def errorCode : ErrorKind → Nat
  | .InvalidFrame => 0x6E02
  | .UnsupportedClass => 0x6E00
  | .InvalidInstruction => 0x6D00
  | .InvalidClass => 0x6E01
  | .InvalidPath => 0x6A80
  | .UserRejected => 0x6985
  | .SequenceError => 0x6986
  | .ParseError => 0x6A81
  | .BufferOverflow => 0x6A84
  | .InternalError => 0x6F00

/-- Success status word (§6): `0x9000`. -/
def SW_OK : Nat := 0x9000

/-! ### APDU command and parser -/

/-- The validated APDU command (§3): class, instruction, P1, P2 and the
variable payload whose length equals the declared `Lc` field. -/
structure ApduCommand where
  cla : Nat
  ins : Nat
  p1 : Nat
  p2 : Nat
  payload : List Nat
deriving DecidableEq, Repr

/-- Modelled from the spec: the APDU Parser/Validator (§4.1) is not in the
available sources.  Given raw frame bytes it produces an `ApduCommand` or
fails: frames shorter than `APDU_MIN_LENGTH` or whose `Lc` byte does not
match the number of remaining payload bytes fail with `InvalidFrame`; a
class byte other than the application class fails with
`UnsupportedClass`.  Pure function of the input bytes. -/
def parseApdu (raw : List Nat) : Except ErrorKind ApduCommand :=
  match raw with
  | cla :: ins :: p1 :: p2 :: lc :: rest =>
      if lc ≠ rest.length then .error .InvalidFrame
      else if cla ≠ CLA_APP then .error .UnsupportedClass
      else .ok ⟨cla, ins, p1, p2, rest⟩
  | _ => .error .InvalidFrame

/-- The payload-type byte of a signing frame, read at
`OFFSET_PAYLOAD_TYPE` per `coin.h`. -/
def payloadTypeOf (raw : List Nat) : Nat :=
  raw.getD OFFSET_PAYLOAD_TYPE 0

/-! ### Signing state machine -/

/-- Stages of the signing session (§4.4):
`Idle → Accumulating → AwaitingApproval → Completed`. -/
inductive Stage
  | Idle
  | Accumulating
  | AwaitingApproval
  | Completed
deriving DecidableEq, Repr

/-- The signing session state (§3): stored derivation path, the
accumulated payload buffer, and the current stage. -/
structure SigningSession where
  path : List Nat
  accumulated : List Nat
  stage : Stage
deriving DecidableEq, Repr

/-- The reset (`Idle`) session: empty path and buffer. -/
def initialSession : SigningSession := ⟨[], [], .Idle⟩

/-- Modelled from the spec: parsing of the accumulated buffer as a domain
transaction structure (§4.4, last-chunk transition).  The domain grammar
is outside the available sources; minimally, an empty buffer is
malformed. -/
def parseTx (bs : List Nat) : Option (List Nat) :=
  if bs.isEmpty then none else some bs

/-- Result of one signing-state-machine step: the new session, the
outcome, and how many times the Key/Crypto Gateway's signing primitive
was invoked during the step. -/
structure StepResult where
  session : SigningSession
  result : Except ErrorKind (List Nat)
  signCalls : Nat
deriving Repr

/-- Modelled from the spec: one chunk transition of the Signing State
Machine (§4.4).  `Idle --init--> Accumulating` stores the derivation path
from the chunk payload and clears the buffer; `Accumulating --add-->
Accumulating` appends, failing with `BufferOverflow` (reset to `Idle`)
past `MAX_TX_SIZE`; `Accumulating --last--> AwaitingApproval` appends and
parses the buffer, `ParseError` (reset to `Idle`) when malformed.  Any
other (stage, P1) pair fails with `SequenceError` and leaves the session
unchanged.  No chunk step invokes the signing primitive. -/
def signChunkStep (sess : SigningSession) (p1 : Nat) (payload : List Nat) :
    StepResult :=
  match sess.stage with
  | .Idle =>
      if p1 = P1_INIT then
        ⟨⟨payload, [], .Accumulating⟩, .ok [], 0⟩
      else
        ⟨sess, .error .SequenceError, 0⟩
  | .Accumulating =>
      if p1 = P1_ADD then
        let acc := sess.accumulated ++ payload
        if acc.length > MAX_TX_SIZE then
          ⟨initialSession, .error .BufferOverflow, 0⟩
        else
          ⟨⟨sess.path, acc, .Accumulating⟩, .ok [], 0⟩
      else if p1 = P1_LAST then
        let acc := sess.accumulated ++ payload
        if acc.length > MAX_TX_SIZE then
          ⟨initialSession, .error .BufferOverflow, 0⟩
        else
          match parseTx acc with
          | none => ⟨initialSession, .error .ParseError, 0⟩
          | some _ => ⟨⟨sess.path, acc, .AwaitingApproval⟩, .ok [], 0⟩
      else
        ⟨sess, .error .SequenceError, 0⟩
  | _ => ⟨sess, .error .SequenceError, 0⟩

/-- Modelled from the spec: the user-approval outcome of the Signing
State Machine (§4.4).  In `AwaitingApproval`, "approved" invokes the
signing primitive `signPrim` exactly once with the stored path and the
accumulated transaction, moves to `Completed` and returns the signature;
"rejected" resets to `Idle` with `UserRejected` and no cryptographic
operation.  In any other stage the outcome is a `SequenceError`. -/
def approvalStep (signPrim : List Nat → List Nat → List Nat)
    (sess : SigningSession) (approved : Bool) : StepResult :=
  match sess.stage with
  | .AwaitingApproval =>
      if approved then
        ⟨⟨sess.path, sess.accumulated, .Completed⟩,
         .ok (signPrim sess.path sess.accumulated), 1⟩
      else
        ⟨initialSession, .error .UserRejected, 0⟩
  | _ => ⟨sess, .error .SequenceError, 0⟩

/-- Modelled from the spec: after the signature response is sent, a
`Completed` session is reset to `Idle` (§4.4, §3 lifecycle); other stages
are untouched by response transmission. -/
def afterResponseSent (sess : SigningSession) : SigningSession :=
  if sess.stage = .Completed then initialSession else sess

/-- Run a list of (P1, payload) chunks through `signChunkStep`,
collecting the final session, the total number of signing-primitive
invocations, and each step's outcome. -/
def runChunks (sess : SigningSession) (chunks : List (Nat × List Nat)) :
    SigningSession × Nat × List (Except ErrorKind (List Nat)) :=
  match chunks with
  | [] => (sess, 0, [])
  | c :: cs =>
      let st := signChunkStep sess c.1 c.2
      let rest := runChunks st.session cs
      (rest.1, st.signCalls + rest.2.1, st.result :: rest.2.2)

/-- The session reached after an init chunk carrying `path` and the given
middle ("more chunks") payloads, just before the last chunk. -/
def afterMiddles (path : List Nat) (middles : List (List Nat)) :
    SigningSession × Nat × List (Except ErrorKind (List Nat)) :=
  let st := signChunkStep initialSession P1_INIT path
  let rest := runChunks st.session (middles.map fun m => (P1_ADD, m))
  (rest.1, st.signCalls + rest.2.1, st.result :: rest.2.2)

/-- The session awaiting approval after init, middles, and the last
chunk, together with the signing-primitive invocation count so far. -/
def preApproval (path : List Nat) (middles : List (List Nat))
    (lastChunk : List Nat) : SigningSession × Nat :=
  let a := afterMiddles path middles
  let st := signChunkStep a.1 P1_LAST lastChunk
  (st.session, a.2.1 + st.signCalls)

/-- Modelled from the spec: a complete signing exchange (§8 Completion /
Rejection scenarios): init chunk, middle chunks, last chunk, then the
user-approval outcome.  Returns the pre-send session, the final outcome,
and the total number of signing-primitive invocations. -/
def runExchange (signPrim : List Nat → List Nat → List Nat)
    (path : List Nat) (middles : List (List Nat)) (lastChunk : List Nat)
    (approved : Bool) :
    SigningSession × Except ErrorKind (List Nat) × Nat :=
  let p := preApproval path middles lastChunk
  let st := approvalStep signPrim p.1 approved
  (st.session, st.result, p.2 + st.signCalls)

/-! ### Handlers and dispatcher -/

/-- Modelled from the spec: the GetVersion response payload.  §6 gives
the layout `testMode(1) | major(1) | minor(1) | patch(1) | deviceLocked(1)
| targetId(4)` and §8's example pins `testMode=false, major=1, minor=0,
patch=0`; deviceLocked and targetId are runtime metadata, taken as zero
here.  Static: independent of the request and of session state. -/
def versionResponse : List Nat := [0, 1, 0, 0, 0, 0, 0, 0, 0]

/-- Modelled from the spec: the external Key/Crypto Gateway's
`derive_public_key(path)` (§2).  The elliptic-curve primitive is an
excluded trusted black box; modelled as a fixed deterministic pure
function of the path. -/
def derive_public_key (path : List Nat) : List Nat := 0x04 :: path

/-- Modelled from the spec: address rendering for a derived public key
(§4.3).  The encoding itself is outside the available sources; modelled
as a fixed deterministic pure function of the public key. -/
def addressOf (pk : List Nat) : List Nat := pk.reverse

/-- Modelled from the spec: the stateless GetAddress handler (§4.3, §6
Address layout `publicKeyLen(1) | publicKey | addressLen(1) | address`).
An empty (malformed) derivation path fails with `InvalidPath`. -/
def getAddressResponse (payload : List Nat) : Except ErrorKind (List Nat) :=
  if payload.isEmpty then .error .InvalidPath
  else
    let pk := derive_public_key payload
    let addr := addressOf pk
    .ok ([pk.length] ++ pk ++ [addr.length] ++ addr)

/-- Which handler a dispatched command executed (none when parsing or
dispatch rejected the command before any handler ran). -/
inductive HandlerTag
  | getVersion
  | getAddress
  | sign
deriving DecidableEq, Repr

/-- Modelled from the spec: the dispatcher's instruction table (§4.2),
keyed by the instruction byte, using the `INS_*` codes of `coin.h`.
Every instruction value has a defined outcome: the three known codes map
to their handlers and everything else to no handler. -/
def insTable (ins : Nat) : Option HandlerTag :=
  if ins = INS_GET_VERSION then some .getVersion
  else if ins = INS_GET_ADDR_SECP256K1 then some .getAddress
  else if ins = INS_SIGN_SECP256K1 then some .sign
  else none

/-- Modelled from the spec: the Command Dispatcher (§4.2).  Checks the
class byte against the application class (`InvalidClass` on mismatch),
then selects the handler from `insTable`; unknown instructions fail with
`InvalidInstruction` and invoke no handler.  The signing handler reads
its chunk selector from the command's P1 field (`OFFSET_PAYLOAD_TYPE =
OFFSET_P1` in `coin.h`). -/
def dispatch (sess : SigningSession) (cmd : ApduCommand) :
    SigningSession × Except ErrorKind (List Nat) × Option HandlerTag :=
  if cmd.cla ≠ CLA_APP then (sess, .error .InvalidClass, none)
  else
    match insTable cmd.ins with
    | some .getVersion => (sess, .ok versionResponse, some .getVersion)
    | some .getAddress => (sess, getAddressResponse cmd.payload, some .getAddress)
    | some .sign =>
        let st := signChunkStep sess cmd.p1 cmd.payload
        (st.session, st.result, some .sign)
    | none => (sess, .error .InvalidInstruction, none)

/-- Modelled from the spec: one full APDU exchange (§2 control flow):
parse, then dispatch.  On a parse failure no handler executes and the
session is untouched. -/
def processApdu (sess : SigningSession) (raw : List Nat) :
    SigningSession × Except ErrorKind (List Nat) × Option HandlerTag :=
  match parseApdu raw with
  | .error e => (sess, .error e, none)
  | .ok cmd => dispatch sess cmd

/-! ### Helper lemmas -/

/-- Inversion for the parser: a validated command records exactly the
bytes of the frame, with the class byte equal to the application class
and the `Lc` byte equal to the payload length. -/
theorem parseApdu_ok_elim {raw : List Nat} {cmd : ApduCommand}
    (h : parseApdu raw = Except.ok cmd) :
    raw = cmd.cla :: cmd.ins :: cmd.p1 :: cmd.p2 ::
      cmd.payload.length :: cmd.payload ∧ cmd.cla = CLA_APP := by
  rcases raw with _ | ⟨a, _ | ⟨b, _ | ⟨c, _ | ⟨d, _ | ⟨e, rest⟩⟩⟩⟩⟩ <;>
    simp only [parseApdu] at h
  iterate 5 exact absurd h (by simp)
  split_ifs at h with h1 h2
  have h3 : (⟨a, b, c, d, rest⟩ : ApduCommand) = cmd :=
    (Except.ok.injEq _ _).mp h
  subst h3
  simp only [not_not] at h1 h2
  exact ⟨by rw [h1], h2⟩

/-- No chunk transition of the signing state machine invokes the signing
primitive. -/
theorem signChunkStep_signCalls (sess : SigningSession) (p1 : Nat)
    (payload : List Nat) : (signChunkStep sess p1 payload).signCalls = 0 := by
  rcases sess with ⟨path, acc, stage⟩
  cases stage <;> simp only [signChunkStep] <;> (repeat' split) <;> rfl

/-- No sequence of chunk transitions invokes the signing primitive. -/
theorem runChunks_signCalls (chunks : List (Nat × List Nat)) :
    ∀ sess : SigningSession, (runChunks sess chunks).2.1 = 0 := by
  induction chunks with
  | nil => intro sess; rfl
  | cons c cs ih =>
      intro sess
      simp only [runChunks, signChunkStep_signCalls, ih, Nat.add_zero]

/-- The whole accumulation phase (init, middles, last) never invokes the
signing primitive. -/
theorem preApproval_signCalls (path : List Nat) (middles : List (List Nat))
    (lastChunk : List Nat) : (preApproval path middles lastChunk).2 = 0 := by
  simp only [preApproval, afterMiddles, signChunkStep_signCalls,
    runChunks_signCalls, Nat.add_zero]

/-- "More chunks" transitions from `Idle` never move the session: each
one is a `SequenceError` that leaves the state untouched. -/
theorem runChunks_idle_add (middles : List (List Nat)) :
    ∀ sess : SigningSession, sess.stage = Stage.Idle →
      (runChunks sess (middles.map fun m => (P1_ADD, m))).1 = sess := by
  induction middles with
  | nil => intro sess _; rfl
  | cons m ms ih =>
      intro sess hs
      have hstep : signChunkStep sess P1_ADD m =
          ⟨sess, Except.error ErrorKind.SequenceError, 0⟩ := by
        simp [signChunkStep, hs, P1_ADD, P1_INIT]
      simp only [List.map_cons, runChunks, hstep]
      exact ih sess hs

/-- Approval in `AwaitingApproval` invokes the signing primitive once
and completes the session. -/
theorem approvalStep_awaiting {sess : SigningSession}
    (h : sess.stage = Stage.AwaitingApproval)
    (signPrim : List Nat → List Nat → List Nat) :
    approvalStep signPrim sess true =
      ⟨⟨sess.path, sess.accumulated, Stage.Completed⟩,
       Except.ok (signPrim sess.path sess.accumulated), 1⟩ := by
  rcases sess with ⟨path, acc, stage⟩
  cases stage <;> simp_all [approvalStep]

/-- Rejection in `AwaitingApproval` resets the session with no signing
invocation. -/
theorem approvalStep_reject {sess : SigningSession}
    (h : sess.stage = Stage.AwaitingApproval)
    (signPrim : List Nat → List Nat → List Nat) :
    approvalStep signPrim sess false =
      ⟨initialSession, Except.error ErrorKind.UserRejected, 0⟩ := by
  rcases sess with ⟨path, acc, stage⟩
  cases stage <;> simp_all [approvalStep]

/-- An approval outcome delivered in any stage other than
`AwaitingApproval` is a sequence error with no signing invocation. -/
theorem approvalStep_not_awaiting {sess : SigningSession}
    (h : sess.stage ≠ Stage.AwaitingApproval)
    (signPrim : List Nat → List Nat → List Nat) (approved : Bool) :
    approvalStep signPrim sess approved =
      ⟨sess, Except.error ErrorKind.SequenceError, 0⟩ := by
  rcases sess with ⟨path, acc, stage⟩
  cases stage <;> simp_all [approvalStep]

/-- Accumulating a run of "more chunks" whose total size pushes the
buffer past `MAX_TX_SIZE` hits a `BufferOverflow` step and leaves the
machine in `Idle`. -/
theorem runChunks_add_overflow (middles : List (List Nat)) :
    ∀ sess : SigningSession, sess.stage = Stage.Accumulating →
      sess.accumulated.length ≤ MAX_TX_SIZE →
      MAX_TX_SIZE < sess.accumulated.length + (middles.map List.length).sum →
      (runChunks sess (middles.map fun m => (P1_ADD, m))).1.stage = Stage.Idle ∧
      Except.error ErrorKind.BufferOverflow ∈
        (runChunks sess (middles.map fun m => (P1_ADD, m))).2.2 := by
  induction middles with
  | nil =>
      intro sess hs hle hgt
      exfalso
      simp only [List.map_nil, List.sum_nil, Nat.add_zero] at hgt
      omega
  | cons m ms ih =>
      intro sess hs hle hgt
      rcases sess with ⟨path, acc, stage⟩
      simp only at hs hle hgt
      subst hs
      by_cases hov : (acc ++ m).length > MAX_TX_SIZE
      · have hstep : signChunkStep ⟨path, acc, Stage.Accumulating⟩ P1_ADD m =
            ⟨initialSession, Except.error ErrorKind.BufferOverflow, 0⟩ := by
          simp only [List.length_append, gt_iff_lt] at hov
          simp [signChunkStep]
          omega
        simp only [List.map_cons, runChunks, hstep]
        refine ⟨?_, List.mem_cons_self _ _⟩
        rw [runChunks_idle_add ms initialSession rfl]
        rfl
      · have hstep : signChunkStep ⟨path, acc, Stage.Accumulating⟩ P1_ADD m =
            ⟨⟨path, acc ++ m, Stage.Accumulating⟩, Except.ok [], 0⟩ := by
          simp only [List.length_append, gt_iff_lt, not_lt] at hov
          simp [signChunkStep]
          omega
        simp only [List.map_cons, runChunks, hstep]
        have hrec := ih ⟨path, acc ++ m, Stage.Accumulating⟩ rfl
          (by simpa using hov)
          (by simp only [List.length_append, List.map_cons, List.sum_cons] at hgt ⊢; omega)
        exact ⟨hrec.1, List.mem_cons_of_mem _ hrec.2⟩

/-! ### Claim theorems -/

/-- C1: For every completed signing exchange consisting of an
init-chunk, any number of middle-chunks, a last-chunk, and a user
approval, the signing primitive is invoked exactly once, and after the
signature response is sent the signing stage is reset from `Completed`
to `Idle`. -/
theorem completed_exchange_signs_once_then_idle
    (signPrim : List Nat → List Nat → List Nat) (path : List Nat)
    (middles : List (List Nat)) (lastChunk : List Nat)
    (h : ∃ sig, (runExchange signPrim path middles lastChunk true).2.1 =
      Except.ok sig) :
    (runExchange signPrim path middles lastChunk true).2.2 = 1 ∧
    (runExchange signPrim path middles lastChunk true).1.stage =
      Stage.Completed ∧
    (afterResponseSent
      (runExchange signPrim path middles lastChunk true).1).stage =
      Stage.Idle := by
  obtain ⟨sig, hs⟩ := h
  by_cases hstage : (preApproval path middles lastChunk).1.stage =
      Stage.AwaitingApproval
  · have ha := approvalStep_awaiting hstage signPrim
    simp only [runExchange, ha, preApproval_signCalls, afterResponseSent]
    simp [initialSession]
  · have ha := approvalStep_not_awaiting hstage signPrim true
    simp only [runExchange, ha] at hs
    exact Except.noConfusion hs

/-- C2: For every signing exchange that reaches the approval stage and
ends with the user-approval collaborator returning "rejected", the
signing primitive is never invoked, the state machine transitions to
`Idle`, and the response carries the `UserRejected` status. -/
theorem rejected_exchange_never_signs
    (signPrim : List Nat → List Nat → List Nat) (path : List Nat)
    (middles : List (List Nat)) (lastChunk : List Nat)
    (h : (preApproval path middles lastChunk).1.stage =
      Stage.AwaitingApproval) :
    (runExchange signPrim path middles lastChunk false).2.2 = 0 ∧
    (runExchange signPrim path middles lastChunk false).2.1 =
      Except.error ErrorKind.UserRejected ∧
    (runExchange signPrim path middles lastChunk false).1.stage =
      Stage.Idle := by
  have ha := approvalStep_reject h signPrim
  simp only [runExchange, ha, preApproval_signCalls]
  simp [initialSession]

/-- C3: A signing APDU carrying the "more chunks" P1 value received
while the stage is `Idle` fails with `SequenceError` and leaves the
whole session (stage, accumulated payload, stored path) unchanged, the
stage remaining `Idle`. -/
theorem more_chunks_while_idle_sequence_error
    (sess : SigningSession) (raw : List Nat) (cmd : ApduCommand)
    (hp : parseApdu raw = Except.ok cmd)
    (hins : cmd.ins = INS_SIGN_SECP256K1)
    (hp1 : cmd.p1 = P1_ADD)
    (hstage : sess.stage = Stage.Idle) :
    processApdu sess raw =
      (sess, Except.error ErrorKind.SequenceError, some HandlerTag.sign) := by
  obtain ⟨hr, hcla⟩ := parseApdu_ok_elim hp
  rcases sess with ⟨spath, sacc, sstage⟩
  simp only at hstage
  subst hstage
  simp only [processApdu]
  rw [hp]
  simp [dispatch, insTable, hcla, hins, hp1, signChunkStep,
    INS_GET_VERSION, INS_GET_ADDR_SECP256K1, INS_SIGN_SECP256K1,
    P1_INIT, P1_ADD]

/-- C4: Accumulating "more chunks" whose total payload size exceeds
`MAX_TX_SIZE` makes the accumulating transition fail with
`BufferOverflow` and resets the signing stage to `Idle`. -/
theorem overflow_fails_and_resets_idle
    (path : List Nat) (middles : List (List Nat))
    (h : MAX_TX_SIZE < (middles.map List.length).sum) :
    (afterMiddles path middles).1.stage = Stage.Idle ∧
    Except.error ErrorKind.BufferOverflow ∈ (afterMiddles path middles).2.2 := by
  have hinit : signChunkStep initialSession P1_INIT path =
      ⟨⟨path, [], Stage.Accumulating⟩, Except.ok [], 0⟩ := by
    simp [signChunkStep, initialSession]
  simp only [afterMiddles, hinit]
  have hrec := runChunks_add_overflow middles ⟨path, [], Stage.Accumulating⟩
    rfl (by simp) (by simpa using h)
  exact ⟨hrec.1, List.mem_cons_of_mem _ hrec.2⟩

/-- C5: For every raw input byte sequence that is malformed — total
length less than `APDU_MIN_LENGTH`, or the declared `Lc` byte not equal
to the number of remaining payload bytes — processing fails with
`InvalidFrame`, the session is untouched and no command handler
executes. -/
theorem malformed_frame_no_handler
    (sess : SigningSession) (raw : List Nat)
    (h : raw.length < APDU_MIN_LENGTH ∨
      raw.getD OFFSET_DATA_LEN 0 ≠ raw.length - OFFSET_DATA) :
    processApdu sess raw =
      (sess, Except.error ErrorKind.InvalidFrame, none) := by
  rcases raw with _ | ⟨a, _ | ⟨b, _ | ⟨c, _ | ⟨d, _ | ⟨e, rest⟩⟩⟩⟩⟩
  iterate 5 rfl
  rcases h with h | h
  · exfalso
    simp only [List.length_cons, APDU_MIN_LENGTH] at h
    omega
  · have he : e ≠ rest.length := by
      simp only [OFFSET_DATA_LEN, OFFSET_DATA, List.getD_cons_succ,
        List.getD_cons_zero, List.length_cons] at h
      omega
    simp only [processApdu, parseApdu]
    rw [if_pos he]

/-- C6: For every validated APDU whose instruction byte is none of the
known instruction codes, dispatch rejects it with `InvalidInstruction`
(whose status code is `0x6D00`), no handler is invoked and the session
— in particular the signing stage — is unchanged. -/
theorem unknown_instruction_rejected
    (sess : SigningSession) (raw : List Nat) (cmd : ApduCommand)
    (hp : parseApdu raw = Except.ok cmd)
    (h0 : cmd.ins ≠ INS_GET_VERSION)
    (h1 : cmd.ins ≠ INS_GET_ADDR_SECP256K1)
    (h2 : cmd.ins ≠ INS_SIGN_SECP256K1) :
    processApdu sess raw =
      (sess, Except.error ErrorKind.InvalidInstruction, none) ∧
    errorCode ErrorKind.InvalidInstruction = 0x6D00 := by
  obtain ⟨hr, hcla⟩ := parseApdu_ok_elim hp
  refine ⟨?_, rfl⟩
  simp only [processApdu]
  rw [hp]
  simp [dispatch, insTable, hcla, h0, h1, h2]

/-- C7: The dispatcher's instruction table maps byte `0x00` to the
GetVersion handler, `0x01` to the GetAddress handler and `0x02` to the
Sign handler, and no other instruction value is mapped to a handler. -/
theorem instruction_table_exact (ins : Nat) :
    insTable 0x00 = some HandlerTag.getVersion ∧
    insTable 0x01 = some HandlerTag.getAddress ∧
    insTable 0x02 = some HandlerTag.sign ∧
    (ins ≠ 0x00 → ins ≠ 0x01 → ins ≠ 0x02 → insTable ins = none) := by
  refine ⟨rfl, rfl, rfl, fun h0 h1 h2 => ?_⟩
  simp [insTable, INS_GET_VERSION, INS_GET_ADDR_SECP256K1,
    INS_SIGN_SECP256K1, h0, h1, h2]

/-- C8: The parser reads the header fields at the fixed byte offsets of
`coin.h` — class at `OFFSET_CLA`, instruction at `OFFSET_INS`, P1 at
`OFFSET_P1`, P2 at `OFFSET_P2`, the data-length byte at
`OFFSET_DATA_LEN`, the payload from `OFFSET_DATA` — and every frame
shorter than `APDU_MIN_LENGTH` bytes is rejected. -/
theorem parser_fixed_offsets :
    (∀ raw cmd, parseApdu raw = Except.ok cmd →
      cmd.cla = raw.getD OFFSET_CLA 0 ∧
      cmd.ins = raw.getD OFFSET_INS 0 ∧
      cmd.p1 = raw.getD OFFSET_P1 0 ∧
      cmd.p2 = raw.getD OFFSET_P2 0 ∧
      cmd.payload.length = raw.getD OFFSET_DATA_LEN 0 ∧
      cmd.payload = raw.drop OFFSET_DATA) ∧
    (∀ raw : List Nat, raw.length < APDU_MIN_LENGTH →
      parseApdu raw = Except.error ErrorKind.InvalidFrame) := by
  constructor
  · intro raw cmd h
    obtain ⟨hr, _⟩ := parseApdu_ok_elim h
    subst hr
    exact ⟨rfl, rfl, rfl, rfl, rfl, rfl⟩
  · intro raw h
    rcases raw with _ | ⟨a, _ | ⟨b, _ | ⟨c, _ | ⟨d, _ | ⟨e, rest⟩⟩⟩⟩⟩
    iterate 5 rfl
    exfalso
    simp only [List.length_cons, APDU_MIN_LENGTH] at h
    omega

/-- C9: Processing a GetVersion or GetAddress command leaves the session
untouched, so processing the same raw bytes twice in succession yields
byte-identical responses. -/
theorem version_address_idempotent
    (sess : SigningSession) (raw : List Nat) (cmd : ApduCommand)
    (hp : parseApdu raw = Except.ok cmd)
    (h : cmd.ins = INS_GET_VERSION ∨ cmd.ins = INS_GET_ADDR_SECP256K1) :
    (processApdu sess raw).1 = sess ∧
    processApdu (processApdu sess raw).1 raw = processApdu sess raw := by
  obtain ⟨hr, hcla⟩ := parseApdu_ok_elim hp
  have hd : ∀ s : SigningSession, processApdu s raw = dispatch s cmd := by
    intro s
    simp only [processApdu]
    rw [hp]
  have hfix : (dispatch sess cmd).1 = sess := by
    rcases h with h | h <;>
      simp [dispatch, insTable, hcla, h,
        INS_GET_VERSION, INS_GET_ADDR_SECP256K1, INS_SIGN_SECP256K1]
  refine ⟨by rw [hd, hfix], ?_⟩
  rw [hd sess, hfix, ← hd sess]

/-- C10: The chunk-type selector of the signing flow is the P1 header
byte: `OFFSET_PAYLOAD_TYPE` equals `OFFSET_P1` (byte offset 2, distinct
from the P2 and payload offsets), the byte read there is the parsed
command's P1, and for signing instructions the dispatcher drives the
state machine with exactly that value. -/
theorem payload_type_from_p1_offset
    (raw : List Nat) (cmd : ApduCommand)
    (hp : parseApdu raw = Except.ok cmd) :
    payloadTypeOf raw = cmd.p1 ∧
    OFFSET_PAYLOAD_TYPE = OFFSET_P1 ∧
    OFFSET_PAYLOAD_TYPE = 2 ∧
    OFFSET_PAYLOAD_TYPE ≠ OFFSET_P2 ∧
    OFFSET_PAYLOAD_TYPE ≠ OFFSET_DATA ∧
    (cmd.ins = INS_SIGN_SECP256K1 → ∀ sess : SigningSession,
      dispatch sess cmd =
        ((signChunkStep sess (payloadTypeOf raw) cmd.payload).session,
         (signChunkStep sess (payloadTypeOf raw) cmd.payload).result,
         some HandlerTag.sign)) := by
  obtain ⟨hr, hcla⟩ := parseApdu_ok_elim hp
  have hpt : payloadTypeOf raw = cmd.p1 := by
    rw [hr]; rfl
  refine ⟨hpt, rfl, rfl, by decide, by decide, fun hins sess => ?_⟩
  rw [hpt]
  simp [dispatch, insTable, hcla, hins,
    INS_GET_VERSION, INS_GET_ADDR_SECP256K1, INS_SIGN_SECP256K1]

/-! ### Witnesses -/

/-- Concrete completed exchange: init `[1]`, middles `[2]`,`[3]`, last
`[4]`, approve — one signing invocation, `Completed` then `Idle`. -/
theorem completed_exchange_signs_once_then_idle_witness :
    (runExchange (fun p d => p ++ d) [1] [[2], [3]] [4] true).2.1 =
      Except.ok [1, 2, 3, 4] ∧
    ((runExchange (fun p d => p ++ d) [1] [[2], [3]] [4] true).2.2 = 1 ∧
     (runExchange (fun p d => p ++ d) [1] [[2], [3]] [4] true).1.stage =
       Stage.Completed ∧
     (afterResponseSent
       (runExchange (fun p d => p ++ d) [1] [[2], [3]] [4] true).1).stage =
       Stage.Idle) :=
  ⟨rfl, completed_exchange_signs_once_then_idle (fun p d => p ++ d)
    [1] [[2], [3]] [4] ⟨[1, 2, 3, 4], rfl⟩⟩

/-- Concrete rejected exchange: same chunks, reject — no signing
invocation, `UserRejected`, `Idle`. -/
theorem rejected_exchange_never_signs_witness :
    (preApproval [1] [[2], [3]] [4]).1.stage = Stage.AwaitingApproval ∧
    ((runExchange (fun p d => p ++ d) [1] [[2], [3]] [4] false).2.2 = 0 ∧
     (runExchange (fun p d => p ++ d) [1] [[2], [3]] [4] false).2.1 =
       Except.error ErrorKind.UserRejected ∧
     (runExchange (fun p d => p ++ d) [1] [[2], [3]] [4] false).1.stage =
       Stage.Idle) :=
  ⟨rfl, rejected_exchange_never_signs (fun p d => p ++ d) [1] [[2], [3]] [4] rfl⟩

/-- Concrete "more chunks" APDU in `Idle`: sequence error, session
untouched. -/
theorem more_chunks_while_idle_sequence_error_witness :
    parseApdu [0x80, 0x02, 1, 0, 1, 9] =
      Except.ok ⟨0x80, 0x02, 1, 0, [9]⟩ ∧
    processApdu initialSession [0x80, 0x02, 1, 0, 1, 9] =
      (initialSession, Except.error ErrorKind.SequenceError,
       some HandlerTag.sign) :=
  ⟨rfl, more_chunks_while_idle_sequence_error initialSession
    [0x80, 0x02, 1, 0, 1, 9] ⟨0x80, 0x02, 1, 0, [9]⟩ rfl rfl rfl rfl⟩

/-- Concrete overflow: one 513-byte middle chunk exceeds the 512-byte
bound — buffer overflow and reset to `Idle`. -/
theorem overflow_fails_and_resets_idle_witness :
    MAX_TX_SIZE < (([List.replicate 513 0]).map List.length).sum ∧
    ((afterMiddles [1] [List.replicate 513 0]).1.stage = Stage.Idle ∧
     Except.error ErrorKind.BufferOverflow ∈
       (afterMiddles [1] [List.replicate 513 0]).2.2) :=
  ⟨by simp only [List.map_cons, List.map_nil, List.length_replicate,
      List.sum_cons, List.sum_nil, MAX_TX_SIZE]; omega,
   overflow_fails_and_resets_idle [1] [List.replicate 513 0]
     (by simp only [List.map_cons, List.map_nil, List.length_replicate,
       List.sum_cons, List.sum_nil, MAX_TX_SIZE]; omega)⟩

/-- Concrete malformed frame: three bytes is below the five-byte
minimum — invalid frame, no handler. -/
theorem malformed_frame_no_handler_witness :
    ([1, 2, 3] : List Nat).length < APDU_MIN_LENGTH ∧
    processApdu initialSession [1, 2, 3] =
      (initialSession, Except.error ErrorKind.InvalidFrame, none) :=
  ⟨by decide, malformed_frame_no_handler initialSession [1, 2, 3]
    (Or.inl (by decide))⟩

/-- Concrete unknown instruction `0x42`: invalid-instruction status
`0x6D00`, no handler, session untouched. -/
theorem unknown_instruction_rejected_witness :
    parseApdu [0x80, 0x42, 0, 0, 0] = Except.ok ⟨0x80, 0x42, 0, 0, []⟩ ∧
    (processApdu initialSession [0x80, 0x42, 0, 0, 0] =
       (initialSession, Except.error ErrorKind.InvalidInstruction, none) ∧
     errorCode ErrorKind.InvalidInstruction = 0x6D00) :=
  ⟨rfl, unknown_instruction_rejected initialSession [0x80, 0x42, 0, 0, 0]
    ⟨0x80, 0x42, 0, 0, []⟩ rfl (by decide) (by decide) (by decide)⟩

/-- Concrete instruction-table entries: `0x00` handled, `0x42`
unmapped. -/
theorem instruction_table_exact_witness :
    insTable 0x00 = some HandlerTag.getVersion ∧ insTable 0x42 = none :=
  ⟨(instruction_table_exact 0x42).1,
   (instruction_table_exact 0x42).2.2.2 (by decide) (by decide) (by decide)⟩

/-- Concrete frame `80 02 07 08 02 05 06`: the parsed P1 is the byte at
`OFFSET_P1`; a three-byte frame is rejected. -/
theorem parser_fixed_offsets_witness :
    (⟨0x80, 2, 7, 8, [5, 6]⟩ : ApduCommand).p1 =
      List.getD [0x80, 2, 7, 8, 2, 5, 6] OFFSET_P1 0 ∧
    parseApdu [1, 2, 3] = Except.error ErrorKind.InvalidFrame :=
  ⟨(parser_fixed_offsets.1 [0x80, 2, 7, 8, 2, 5, 6]
      ⟨0x80, 2, 7, 8, [5, 6]⟩ rfl).2.2.1,
   parser_fixed_offsets.2 [1, 2, 3] (by decide)⟩

/-- Concrete GetVersion APDU processed twice: identical responses,
session untouched. -/
theorem version_address_idempotent_witness :
    parseApdu [0x80, 0, 0, 0, 0] = Except.ok ⟨0x80, 0, 0, 0, []⟩ ∧
    ((processApdu initialSession [0x80, 0, 0, 0, 0]).1 = initialSession ∧
     processApdu (processApdu initialSession [0x80, 0, 0, 0, 0]).1
       [0x80, 0, 0, 0, 0] = processApdu initialSession [0x80, 0, 0, 0, 0]) :=
  ⟨rfl, version_address_idempotent initialSession [0x80, 0, 0, 0, 0]
    ⟨0x80, 0, 0, 0, []⟩ rfl (Or.inl rfl)⟩

/-- Concrete signing frame: the payload-type byte read at offset 2 is
the parsed command's P1. -/
theorem payload_type_from_p1_offset_witness :
    parseApdu [0x80, 0x02, 3, 0, 1, 9] = Except.ok ⟨0x80, 0x02, 3, 0, [9]⟩ ∧
    payloadTypeOf [0x80, 0x02, 3, 0, 1, 9] =
      (⟨0x80, 0x02, 3, 0, [9]⟩ : ApduCommand).p1 :=
  ⟨rfl, (payload_type_from_p1_offset [0x80, 0x02, 3, 0, 1, 9]
    ⟨0x80, 0x02, 3, 0, [9]⟩ rfl).1⟩

end LedgerTezos
